import Mathlib

/-
  Verification of the Budget Allocation Engine and Command Interpreter of the
  budgeting repository (backend/buckets/bucket.py, backend/buckets/bucketmanager.py,
  backend/command_translator.py).

  Modelling choices:
  * Python floats are modelled as exact rationals; the tolerances written in the
    source (0.01, 1e-6) are kept literally as the rationals 1/100 and 1/1000000.
  * A BucketManager is a state: an insertion-ordered association list from bucket
    name to percentage, plus the total budget.  Python dict semantics (unique
    keys, in-place update preserving position, deletion) are mirrored by
    first-match update and first-match deletion on the list; the manager never
    creates a duplicate key, so first-match agrees with dict behaviour.
  * A Bucket also carries a dead current_value field in the source; it is never
    read by any operation modelled here (add_bucket explicitly ignores it), so
    the state keeps only name and percentage.
  * Methods that return a bool are modelled as returning PyResult.ok / .failed;
    methods that raise ValueError (add_bucket on a duplicate name,
    resize_bucket on a missing name) return PyResult.valueError with the state
    unchanged, which is what the Python exception does before any mutation.
-/

namespace Budget

/-- Outcome of a BucketManager method: returned True, returned False, or
raised ValueError. -/
inductive PyResult where
  | ok : PyResult
  | failed : PyResult
  | valueError : PyResult
deriving DecidableEq, Repr

/-- The bucket store: insertion-ordered list of (name, percentage). -/
abbrev BucketList := List (String × ℚ)

/-- State of a BucketManager: the bucket dictionary and the total budget. -/
structure BMState where
  buckets : BucketList
  total_budget : ℚ
deriving DecidableEq, Repr

/-- Dictionary lookup: percentage of the first bucket with the given name
(dict.get; keys are unique in every state the manager builds). -/
def lookupPct (bs : BucketList) (n : String) : Option ℚ :=
  (bs.find? (fun b => b.1 = n)).map Prod.snd

/-- In-place update of a dict entry: replace the percentage of the first
bucket with the given name (Bucket.resize_percentage through the dict). -/
def setPct : BucketList → String → ℚ → BucketList
  | [], _, _ => []
  | b :: bs, n, p => if b.1 = n then (n, p) :: bs else b :: setPct bs n p

/-- Dict deletion: remove the first bucket with the given name. -/
def eraseKey : BucketList → String → BucketList
  | [], _ => []
  | b :: bs, n => if b.1 = n then bs else b :: eraseKey bs n

/-- Sum of all bucket percentages (BucketManager.get_total_percentage). -/
def totalPct (bs : BucketList) : ℚ :=
  (bs.map Prod.snd).sum

/-- BucketManager.__init__: a fresh manager holds a single bucket
"free" at 100 percent. -/
def mkManager (total_budget : ℚ) : BMState :=
  { buckets := [("free", 100)], total_budget := total_budget }

/-- BucketManager.get_total_percentage on a state. -/
def get_total_percentage (s : BMState) : ℚ :=
  totalPct s.buckets

/-- BucketManager.is_percentage_valid: total within 0.01 of 100. -/
def is_percentage_valid (s : BMState) : Bool :=
  |get_total_percentage s - 100| < 1/100

/-- BucketManager.add_bucket.  Raises on a duplicate name; when "free"
exists, clamps the request to the free percentage, fails when free is
exactly 0, otherwise shrinks free and appends the new bucket; when "free"
is absent, checks the 100 ceiling directly. -/
def add_bucket (s : BMState) (name : String) (percentage : ℚ) : PyResult × BMState :=
  if (lookupPct s.buckets name).isSome then (.valueError, s)
  else
    match lookupPct s.buckets "free" with
    | some free_percentage =>
      let p := if percentage > free_percentage then free_percentage else percentage
      if free_percentage = 0 then (.failed, s)
      else
        let new_free := free_percentage - p
        (.ok, { s with buckets := setPct s.buckets "free" new_free ++ [(name, p)] })
    | none =>
      let current_total := totalPct s.buckets
      if current_total + percentage > 100 then (.failed, s)
      else (.ok, { s with buckets := s.buckets ++ [(name, percentage)] })

/-- BucketManager.remove_bucket: refuses a missing name and the "free"
bucket; otherwise deletes the bucket and returns its percentage to "free"
(creating "free" at 100 minus the remaining total when absent). -/
def remove_bucket (s : BMState) (name : String) : PyResult × BMState :=
  match lookupPct s.buckets name with
  | none => (.failed, s)
  | some removed_percentage =>
    if name = "free" then (.failed, s)
    else
      let bs := eraseKey s.buckets name
      match lookupPct bs "free" with
      | some current_free =>
        (.ok, { s with buckets := setPct bs "free" (current_free + removed_percentage) })
      | none =>
        let needed := 100 - totalPct bs
        (.ok, { s with buckets := bs ++ [("free", needed)] })

/-- BucketManager.resize_bucket: raises on a missing name; if the direct
resize would push the total over 100, zeroes "free" and retests; on the
retest failing, restores "free" and fails; otherwise installs the new
percentage. -/
def resize_bucket (s : BMState) (name : String) (new_percentage : ℚ) : PyResult × BMState :=
  match lookupPct s.buckets name with
  | none => (.valueError, s)
  | some old_percentage =>
    let total_without := totalPct s.buckets - old_percentage
    if total_without + new_percentage > 100 then
      match lookupPct s.buckets "free" with
      | some free_old_pct =>
        if free_old_pct > 0 then
          let bs1 := setPct s.buckets "free" 0
          let total_without2 := totalPct bs1 - old_percentage
          if total_without2 + new_percentage > 100 then
            (.failed, { s with buckets := setPct bs1 "free" free_old_pct })
          else
            (.ok, { s with buckets := setPct bs1 name new_percentage })
        else (.failed, s)
      | none => (.failed, s)
    else
      (.ok, { s with buckets := setPct s.buckets name new_percentage })

/-- BucketManager.set_total_budget. -/
def set_total_budget (s : BMState) (amount : ℚ) : BMState :=
  { s with total_budget := amount }

/-- BucketManager.add_amount_to_bucket: converts the percentage to dollars,
adds the amount, clamps at 0, converts back; the "free" bucket is only
adjustable when the total stays within 0.01 of 100; otherwise the delta is
mirrored onto "free", failing when free would fall below minus 0.01. -/
def add_amount_to_bucket (s : BMState) (name : String) (amount : ℚ) : PyResult × BMState :=
  match lookupPct s.buckets name with
  | none => (.failed, s)
  | some old_pct =>
    if s.total_budget ≤ 0 then (.failed, s)
    else
      let current_dollars := old_pct / 100 * s.total_budget
      let new_dollars0 := current_dollars + amount
      let new_dollars := if new_dollars0 < 0 then 0 else new_dollars0
      let new_pct := new_dollars / s.total_budget * 100
      let total_without := totalPct s.buckets - old_pct
      let proposed_total := total_without + new_pct
      if name = "free" then
        if |proposed_total - 100| > 1/100 then (.failed, s)
        else (.ok, { s with buckets := setPct s.buckets name new_pct })
      else
        match lookupPct s.buckets "free" with
        | some free_old =>
          let delta_pct := new_pct - old_pct
          let free_new := free_old - delta_pct
          if free_new < -(1/100) then (.failed, s)
          else
            (.ok, { s with buckets := setPct (setPct s.buckets name new_pct) "free" (max free_new 0) })
        | none =>
          if proposed_total > 100 + 1/1000000 then (.failed, s)
          else (.ok, { s with buckets := setPct s.buckets name new_pct })

/-- BucketManager.subtract_amount_from_bucket: checks existence then reuses
add_amount_to_bucket with the negated amount. -/
def subtract_amount_from_bucket (s : BMState) (name : String) (amount : ℚ) : PyResult × BMState :=
  match lookupPct s.buckets name with
  | none => (.failed, s)
  | some _ => add_amount_to_bucket s name (-amount)

/-- The list comprehension `[b for name, b in buckets.items() if name != "rent"]`
of auto_resize_to_100_percent. -/
def otherBuckets (bs : BucketList) : BucketList :=
  bs.filter (fun b => !(b.1 = "rent" : Bool))

/-- The rent-named entries of the dictionary (at most one in any state the
manager builds). -/
def rentEntries (bs : BucketList) : BucketList :=
  bs.filter (fun b => (b.1 = "rent" : Bool))

/-- BucketManager.auto_resize_to_100_percent: fails on an empty dict;
succeeds doing nothing when every bucket is named "rent"; when the
non-rent buckets sum to 0, sets "rent" to 100 when it exists and fails
otherwise; otherwise scales every non-rent bucket by
(100 - rent) / (sum of non-rent). -/
def auto_resize_to_100_percent (s : BMState) : PyResult × BMState :=
  if s.buckets = [] then (.failed, s)
  else
    let rentPct? := lookupPct s.buckets "rent"
    let other_buckets := otherBuckets s.buckets
    if other_buckets = [] ∧ rentPct?.isSome then (.ok, s)
    else
      let rent_pct := rentPct?.getD 0
      let other_total := totalPct other_buckets
      if other_total = 0 then
        match rentPct? with
        | some _ => (.ok, { s with buckets := setPct s.buckets "rent" 100 })
        | none => (.failed, s)
      else
        let scaling_factor := (100 - rent_pct) / other_total
        (.ok, { s with buckets :=
          s.buckets.map (fun b => if b.1 = "rent" then b else (b.1, b.2 * scaling_factor)) })

/-- The public mutating operations of the manager, for reachability
statements. -/
inductive BMOp where
  | add (name : String) (pct : ℚ)
  | remove (name : String)
  | resize (name : String) (pct : ℚ)
  | addAmount (name : String) (amt : ℚ)
  | subAmount (name : String) (amt : ℚ)
  | autoResize
  | setBudget (amt : ℚ)
deriving DecidableEq, Repr

/-- Apply one public operation (a failed or raising call leaves the state
unchanged, exactly as in the source). -/
def applyOp (s : BMState) : BMOp → BMState
  | .add n p => (add_bucket s n p).2
  | .remove n => (remove_bucket s n).2
  | .resize n p => (resize_bucket s n p).2
  | .addAmount n x => (add_amount_to_bucket s n x).2
  | .subAmount n x => (subtract_amount_from_bucket s n x).2
  | .autoResize => (auto_resize_to_100_percent s).2
  | .setBudget a => set_total_budget s a

/-- Run a sequence of public operations from a state. -/
def runOps (s : BMState) (ops : List BMOp) : BMState :=
  ops.foldl applyOp s

/-- A state is reachable when some operation sequence produces it from a
fresh manager. -/
def Reachable (s : BMState) : Prop :=
  ∃ tb : ℚ, ∃ ops : List BMOp, s = runOps (mkManager tb) ops

/-- Operations that only add or remove buckets (used to state which part of
the Strategy A invariant survives). -/
def BMOp.isAddRemove : BMOp → Bool
  | .add _ _ => true
  | .remove _ => true
  | _ => false

/-- Operations that preserve the [0,100] range invariant: add with a
nonnegative percentage, remove, auto-resize and budget updates. -/
def BMOp.isRangeSafe : BMOp → Bool
  | .add _ p => decide (0 ≤ p)
  | .remove _ => true
  | .autoResize => true
  | .setBudget _ => true
  | _ => false

/-! ## Command Translator (backend/command_translator.py)

Python string primitives (str.strip, str.split, str.upper, float parsing)
are modelled directly on character lists so that concrete runs reduce. -/

/-- str.strip on a character list. -/
def trimChars (l : List Char) : List Char :=
  ((l.dropWhile Char.isWhitespace).reverse.dropWhile Char.isWhitespace).reverse

/-- str.strip. -/
def pyStrip (s : String) : String := ⟨trimChars s.data⟩

/-- str.split with no separator: split on whitespace runs, dropping empty
pieces. -/
def splitWsAux : List Char → List Char → List (List Char)
  | [], acc => if acc = [] then [] else [acc.reverse]
  | c :: cs, acc =>
    if c.isWhitespace then
      (if acc = [] then splitWsAux cs [] else acc.reverse :: splitWsAux cs [])
    else splitWsAux cs (c :: acc)

/-- str.split with no separator. -/
def pySplitWs (s : String) : List String := (splitWsAux s.data []).map List.asString

/-- str.split on a newline. -/
def splitLinesAux : List Char → List Char → List (List Char)
  | [], acc => [acc.reverse]
  | c :: cs, acc =>
    if c = '\n' then acc.reverse :: splitLinesAux cs [] else splitLinesAux cs (c :: acc)

/-- str.split on a newline. -/
def pySplitLines (s : String) : List String := (splitLinesAux s.data []).map List.asString

/-- str.upper (the commands are ASCII). -/
def pyUpper (s : String) : String := ⟨s.data.map Char.toUpper⟩

/-- Digits of a numeral as a natural number. -/
def digitsToNat (l : List Char) : ℕ :=
  l.foldl (fun a c => a * 10 + (c.toNat - 48)) 0

/-- float(token) for the plain decimal forms the planner grammar uses:
optional sign, digits, optional fraction; a malformed token is a
ValueError (exponent and inf or nan forms are not needed by any claim). -/
def pyFloat? (t : String) : Option ℚ :=
  let step : List Char → Option ℚ := fun cs =>
    let intPart := cs.takeWhile Char.isDigit
    let rest := cs.dropWhile Char.isDigit
    match rest with
    | [] => if intPart = [] then none else some (digitsToNat intPart)
    | '.' :: frac =>
      if frac.all Char.isDigit ∧ (intPart ≠ [] ∨ frac ≠ []) then
        some ((digitsToNat intPart : ℚ) + (digitsToNat frac : ℚ) / 10 ^ frac.length)
      else none
    | _ => none
  match t.data with
  | '-' :: cs => (step cs).map (fun q => -q)
  | '+' :: cs => step cs
  | cs => step cs

/-- Outcome of one interpreter line, abstracting the message string the
source builds: each constructor corresponds to exactly one message shape of
CommandTranslator.execute_command. -/
inductive CmdResult where
  | setBudgetOk        -- Set total budget
  | addBucketOk        -- Added bucket
  | addBucketFail      -- Failed to add bucket - insufficient percentage available
  | resizeExistingOk   -- Resized existing bucket (ADD_BUCKET on existing name)
  | resizeExistingFail -- Failed to resize bucket (ADD_BUCKET on existing name)
  | removeOk           -- Removed bucket
  | removeFail         -- Failed to remove bucket - does not exist or is free
  | resizeOk           -- Resized bucket
  | resizeFail         -- Failed to resize bucket - would exceed 100 percent
  | addAmountCreatedOk -- Created bucket at 0 percent and added amount
  | addAmountOk        -- Added amount to bucket
  | addAmountFail      -- Failed to add amount - bucket does not exist
  | subAmountCreatedOk -- Created bucket at 0 percent and subtracted amount
  | subAmountOk        -- Subtracted amount from bucket
  | subAmountFail      -- Failed to subtract amount - bucket does not exist
  | autoResizeOk       -- Auto-resized all buckets
  | autoResizeFail     -- Failed to auto-resize - no buckets exist
  | unknown            -- Unknown command type
  | invalidCommand     -- Invalid command (blank after parse)
  | invalidArgument    -- caught ValueError: float() failure or a raising manager call
  | execError          -- caught generic Exception: missing argument, or REBALANCE
                       -- (BucketManager has no rebalance_buckets attribute)
deriving DecidableEq, Repr

/-- The command keywords execute_command dispatches on. -/
def knownCommands : List String :=
  ["SET_TOTAL_BUDGET", "ADD_BUCKET", "REMOVE_BUCKET", "RESIZE_BUCKET",
   "ADD_AMOUNT", "SUBTRACT_AMOUNT", "REBALANCE", "AUTO_RESIZE_TO_100"]

/-- SET_TOTAL_BUDGET branch: float(args[0]); a missing argument is an
IndexError caught by the generic handler. -/
def execSetBudget (s : BMState) (args : List String) : CmdResult × BMState :=
  match args.head? with
  | none => (.execError, s)
  | some a0 =>
    match pyFloat? a0 with
    | none => (.invalidArgument, s)
    | some amount => (.setBudgetOk, set_total_budget s amount)

/-- ADD_BUCKET branch: parses percentage (and the ignored third argument
when present), then resizes an existing bucket or adds a new one. -/
def execAddBucket (s : BMState) (args : List String) : CmdResult × BMState :=
  match args.head? with
  | none => (.execError, s)
  | some name =>
    match args.get? 1 with
    | none => (.execError, s)
    | some a1 =>
      match pyFloat? a1 with
      | none => (.invalidArgument, s)
      | some percentage =>
        let thirdBad := match args.get? 2 with
          | some a2 => (pyFloat? a2).isNone
          | none => false
        if thirdBad then (.invalidArgument, s)
        else if (lookupPct s.buckets name).isSome then
          match resize_bucket s name percentage with
          | (.ok, s') => (.resizeExistingOk, s')
          | (.failed, s') => (.resizeExistingFail, s')
          | (.valueError, s') => (.invalidArgument, s')
        else
          match add_bucket s name percentage with
          | (.ok, s') => (.addBucketOk, s')
          | (.failed, s') => (.addBucketFail, s')
          | (.valueError, s') => (.invalidArgument, s')

/-- REMOVE_BUCKET branch. -/
def execRemoveBucket (s : BMState) (args : List String) : CmdResult × BMState :=
  match args.head? with
  | none => (.execError, s)
  | some name =>
    match remove_bucket s name with
    | (.ok, s') => (.removeOk, s')
    | (_, s') => (.removeFail, s')

/-- RESIZE_BUCKET branch: a ValueError raised by resize_bucket (missing
name) is caught and rendered as an invalid-argument line. -/
def execResizeBucket (s : BMState) (args : List String) : CmdResult × BMState :=
  match args.head? with
  | none => (.execError, s)
  | some name =>
    match args.get? 1 with
    | none => (.execError, s)
    | some a1 =>
      match pyFloat? a1 with
      | none => (.invalidArgument, s)
      | some new_percentage =>
        match resize_bucket s name new_percentage with
        | (.ok, s') => (.resizeOk, s')
        | (.failed, s') => (.resizeFail, s')
        | (.valueError, s') => (.invalidArgument, s')

/-- ADD_AMOUNT branch: auto-creates the bucket at 0 percent when absent
(ignoring whether that add succeeded), then adds the amount. -/
def execAddAmount (s : BMState) (args : List String) : CmdResult × BMState :=
  match args.head? with
  | none => (.execError, s)
  | some name =>
    match args.get? 1 with
    | none => (.execError, s)
    | some a1 =>
      match pyFloat? a1 with
      | none => (.invalidArgument, s)
      | some amount =>
        let created := (lookupPct s.buckets name).isNone
        let s1 := if created then (add_bucket s name 0).2 else s
        match add_amount_to_bucket s1 name amount with
        | (.ok, s2) => (if created then .addAmountCreatedOk else .addAmountOk, s2)
        | (_, s2) => (.addAmountFail, s2)

/-- SUBTRACT_AMOUNT branch: mirror of ADD_AMOUNT. -/
def execSubAmount (s : BMState) (args : List String) : CmdResult × BMState :=
  match args.head? with
  | none => (.execError, s)
  | some name =>
    match args.get? 1 with
    | none => (.execError, s)
    | some a1 =>
      match pyFloat? a1 with
      | none => (.invalidArgument, s)
      | some amount =>
        let created := (lookupPct s.buckets name).isNone
        let s1 := if created then (add_bucket s name 0).2 else s
        match subtract_amount_from_bucket s1 name amount with
        | (.ok, s2) => (if created then .subAmountCreatedOk else .subAmountOk, s2)
        | (_, s2) => (.subAmountFail, s2)

/-- AUTO_RESIZE_TO_100 branch. -/
def execAutoResize (s : BMState) : CmdResult × BMState :=
  match auto_resize_to_100_percent s with
  | (.ok, s') => (.autoResizeOk, s')
  | (_, s') => (.autoResizeFail, s')

/-- CommandTranslator.execute_command: first whitespace token, uppercased,
selects the branch; an unmatched keyword reaches the final return
(Unknown command type); REBALANCE calls a method BucketManager does not
define, so its AttributeError is caught by the generic handler. -/
def executeCommand (s : BMState) (command : String) : CmdResult × BMState :=
  match pySplitWs (pyStrip command) with
  | [] => (.invalidCommand, s)
  | t :: args =>
    let c := pyUpper t
    if c = "SET_TOTAL_BUDGET" then execSetBudget s args
    else if c = "ADD_BUCKET" then execAddBucket s args
    else if c = "REMOVE_BUCKET" then execRemoveBucket s args
    else if c = "RESIZE_BUCKET" then execResizeBucket s args
    else if c = "ADD_AMOUNT" then execAddAmount s args
    else if c = "SUBTRACT_AMOUNT" then execSubAmount s args
    else if c = "REBALANCE" then (.execError, s)
    else if c = "AUTO_RESIZE_TO_100" then execAutoResize s
    else (.unknown, s)

/-- The lines CommandTranslator.__call__ executes: strip the block, split
on newlines, strip each line, keep the non-blank lines other than
NO_ACTION. -/
def activeLines (input : String) : List String :=
  ((pySplitLines (pyStrip input)).map pyStrip).filter
    (fun l => !(l = "" : Bool) && !(l = "NO_ACTION" : Bool))

/-- Execute a list of lines in order, threading the state and collecting
one result per line. -/
def runLines (s : BMState) : List String → List CmdResult × BMState
  | [] => ([], s)
  | l :: ls =>
    let r := executeCommand s l
    let rest := runLines r.2 ls
    (r.1 :: rest.1, rest.2)

/-- CommandTranslator.__call__ on a state: execute every active line of the
block in order. -/
def callTranslator (s : BMState) (input : String) : List CmdResult × BMState :=
  runLines s (activeLines input)

/-! ## Helper lemmas about the bucket dictionary -/

theorem lookupPct_cons (b : String × ℚ) (bs : BucketList) (n : String) :
    lookupPct (b :: bs) n = if b.1 = n then some b.2 else lookupPct bs n := by
  by_cases h : b.1 = n <;> simp [lookupPct, List.find?_cons, h]

theorem lookupPct_eq_none_iff (bs : BucketList) (n : String) :
    lookupPct bs n = none ↔ n ∉ bs.map Prod.fst := by
  induction bs with
  | nil => simp [lookupPct]
  | cons b bs ih =>
    by_cases h : b.1 = n
    · simp [lookupPct_cons, h]
    · simp [lookupPct_cons, h, ih, Ne.symm h]

theorem lookupPct_isSome_iff (bs : BucketList) (n : String) :
    (lookupPct bs n).isSome ↔ n ∈ bs.map Prod.fst := by
  induction bs with
  | nil => simp [lookupPct]
  | cons b bs ih =>
    by_cases h : b.1 = n
    · simp [lookupPct_cons, h]
    · simp [lookupPct_cons, h, ih, Ne.symm h]

theorem lookupPct_setPct_self {bs : BucketList} {n : String} {w : ℚ} (v : ℚ)
    (h : lookupPct bs n = some w) : lookupPct (setPct bs n v) n = some v := by
  induction bs with
  | nil => simp [lookupPct] at h
  | cons b bs ih =>
    by_cases hb : b.1 = n
    · simp [setPct, hb, lookupPct_cons]
    · rw [lookupPct_cons, if_neg hb] at h
      simp [setPct, hb, lookupPct_cons, ih h]

theorem lookupPct_setPct_ne {m n : String} (bs : BucketList) (v : ℚ) (h : m ≠ n) :
    lookupPct (setPct bs n v) m = lookupPct bs m := by
  induction bs with
  | nil => simp [setPct]
  | cons b bs ih =>
    by_cases hb : b.1 = n
    · have h1 : ¬ (n = m) := fun he => h he.symm
      have h2 : ¬ (b.1 = m) := fun he => h1 (hb.symm.trans he)
      rw [setPct, if_pos hb, lookupPct_cons, lookupPct_cons, if_neg h1, if_neg h2]
    · rw [setPct, if_neg hb, lookupPct_cons, lookupPct_cons, ih]

theorem setPct_revert {bs : BucketList} {n : String} {w : ℚ} (v : ℚ)
    (h : lookupPct bs n = some w) : setPct (setPct bs n v) n w = bs := by
  induction bs with
  | nil => simp [lookupPct] at h
  | cons b bs ih =>
    obtain ⟨b1, b2⟩ := b
    by_cases hb : b1 = n
    · rw [lookupPct_cons, if_pos hb] at h
      have hw : b2 = w := Option.some.inj h
      subst hb
      subst hw
      simp [setPct]
    · rw [lookupPct_cons, if_neg hb] at h
      simp [setPct, hb, ih h]

theorem totalPct_setPct {bs : BucketList} {n : String} {w : ℚ} (v : ℚ)
    (h : lookupPct bs n = some w) : totalPct (setPct bs n v) = totalPct bs - w + v := by
  induction bs with
  | nil => simp [lookupPct] at h
  | cons b bs ih =>
    by_cases hb : b.1 = n
    · rw [lookupPct_cons, if_pos hb] at h
      have hw : b.2 = w := Option.some.inj h
      simp [setPct, hb, totalPct, hw]
      ring
    · rw [lookupPct_cons, if_neg hb] at h
      simp [setPct, hb, totalPct] at ih ⊢
      rw [ih h]
      ring

theorem totalPct_append (bs cs : BucketList) :
    totalPct (bs ++ cs) = totalPct bs + totalPct cs := by
  simp [totalPct]

theorem lookupPct_eraseKey_ne {m n : String} (bs : BucketList) (h : m ≠ n) :
    lookupPct (eraseKey bs n) m = lookupPct bs m := by
  induction bs with
  | nil => simp [eraseKey]
  | cons b bs ih =>
    by_cases hb : b.1 = n
    · have h2 : ¬ (b.1 = m) := fun he => h (he.symm.trans hb)
      rw [eraseKey, if_pos hb, lookupPct_cons, if_neg h2]
    · rw [eraseKey, if_neg hb, lookupPct_cons, lookupPct_cons, ih]

theorem totalPct_eraseKey {bs : BucketList} {n : String} {w : ℚ}
    (h : lookupPct bs n = some w) : totalPct (eraseKey bs n) = totalPct bs - w := by
  induction bs with
  | nil => simp [lookupPct] at h
  | cons b bs ih =>
    by_cases hb : b.1 = n
    · rw [lookupPct_cons, if_pos hb] at h
      have hw : b.2 = w := Option.some.inj h
      simp [eraseKey, hb, totalPct, hw]
    · rw [lookupPct_cons, if_neg hb] at h
      rw [eraseKey, if_neg hb]
      simp only [totalPct, List.map_cons, List.sum_cons] at ih ⊢
      rw [ih h]
      ring

theorem lookupPct_append_none {bs : BucketList} {n : String} (cs : BucketList)
    (h : lookupPct bs n = none) : lookupPct (bs ++ cs) n = lookupPct cs n := by
  induction bs with
  | nil => simp
  | cons b bs ih =>
    rw [lookupPct_cons] at h
    by_cases hb : b.1 = n
    · rw [if_pos hb] at h; exact absurd h (by simp)
    · rw [if_neg hb] at h
      simp [lookupPct_cons, hb, ih h]

theorem lookupPct_append_some {bs : BucketList} {n : String} {w : ℚ} (cs : BucketList)
    (h : lookupPct bs n = some w) : lookupPct (bs ++ cs) n = some w := by
  induction bs with
  | nil => simp [lookupPct] at h
  | cons b bs ih =>
    rw [lookupPct_cons] at h
    by_cases hb : b.1 = n
    · rw [if_pos hb] at h
      simp [lookupPct_cons, hb, h]
    · rw [if_neg hb] at h
      simp [lookupPct_cons, hb, ih h]

theorem mem_setPct {b : String × ℚ} {bs : BucketList} {n : String} {v : ℚ}
    (hb : b ∈ setPct bs n v) : b ∈ bs ∨ b = (n, v) := by
  induction bs with
  | nil => simp [setPct] at hb
  | cons c bs ih =>
    by_cases hc : c.1 = n
    · rw [setPct, if_pos hc] at hb
      rcases List.mem_cons.mp hb with h | h
      · exact Or.inr h
      · exact Or.inl (List.mem_cons_of_mem _ h)
    · rw [setPct, if_neg hc] at hb
      rcases List.mem_cons.mp hb with h | h
      · exact Or.inl (h ▸ List.mem_cons_self _ _)
      · rcases ih h with h' | h'
        · exact Or.inl (List.mem_cons_of_mem _ h')
        · exact Or.inr h'

theorem mem_eraseKey {b : String × ℚ} {bs : BucketList} {n : String}
    (hb : b ∈ eraseKey bs n) : b ∈ bs := by
  induction bs with
  | nil => simp [eraseKey] at hb
  | cons c bs ih =>
    by_cases hc : c.1 = n
    · rw [eraseKey, if_pos hc] at hb
      exact List.mem_cons_of_mem _ hb
    · rw [eraseKey, if_neg hc] at hb
      rcases List.mem_cons.mp hb with h | h
      · exact h ▸ List.mem_cons_self _ _
      · exact List.mem_cons_of_mem _ (ih h)

theorem pct_le_totalPct {bs : BucketList} (h : ∀ b ∈ bs, 0 ≤ b.2) :
    ∀ b ∈ bs, b.2 ≤ totalPct bs := by
  intro b hb
  have h0 : ∀ x ∈ bs.map Prod.snd, (0:ℚ) ≤ x := by
    intro x hx
    obtain ⟨y, hy, rfl⟩ := List.mem_map.mp hx
    exact h y hy
  have hmem : b.2 ∈ bs.map Prod.snd := List.mem_map_of_mem _ hb
  simpa [totalPct] using List.single_le_sum h0 _ hmem

theorem keys_setPct (bs : BucketList) (n : String) (v : ℚ) :
    (setPct bs n v).map Prod.fst = bs.map Prod.fst := by
  induction bs with
  | nil => simp [setPct]
  | cons b bs ih =>
    by_cases hb : b.1 = n
    · simp [setPct, hb]
    · simp [setPct, hb, ih]

theorem isSome_lookupPct_setPct (bs : BucketList) (n m : String) (v : ℚ) :
    (lookupPct (setPct bs n v) m).isSome ↔ (lookupPct bs m).isSome := by
  rw [lookupPct_isSome_iff, lookupPct_isSome_iff, keys_setPct]

/-! ## Preservation of the "free" bucket (every public operation) -/

theorem keys_scaleMap (bs : BucketList) (c : ℚ) :
    ((bs.map (fun b => if b.1 = "rent" then b else (b.1, b.2 * c))).map Prod.fst)
      = bs.map Prod.fst := by
  rw [List.map_map]
  apply List.map_congr_left
  intro b _
  by_cases hb : b.1 = "rent" <;> simp [hb]

theorem isSome_lookupPct_scaleMap (bs : BucketList) (c : ℚ) (m : String) :
    (lookupPct (bs.map (fun b => if b.1 = "rent" then b else (b.1, b.2 * c))) m).isSome
      ↔ (lookupPct bs m).isSome := by
  rw [lookupPct_isSome_iff, lookupPct_isSome_iff, keys_scaleMap]

theorem free_after_add (s : BMState) (name : String) (p : ℚ)
    (h : (lookupPct s.buckets "free").isSome) :
    (lookupPct (add_bucket s name p).2.buckets "free").isSome := by
  rw [add_bucket]
  dsimp only
  repeat' split
  all_goals
    first
      | exact h
      | (exact Option.isSome_iff_exists.mpr
          ⟨_, lookupPct_append_some _ (lookupPct_setPct_self _ (by assumption))⟩)
      | (obtain ⟨f, hf⟩ := Option.isSome_iff_exists.mp h
         exact Option.isSome_iff_exists.mpr ⟨_, lookupPct_append_some _ hf⟩)

theorem free_after_remove (s : BMState) (name : String)
    (h : (lookupPct s.buckets "free").isSome) :
    (lookupPct (remove_bucket s name).2.buckets "free").isSome := by
  rw [remove_bucket]
  dsimp only
  repeat' split
  all_goals
    first
      | exact h
      | (exact Option.isSome_iff_exists.mpr ⟨_, lookupPct_setPct_self _ (by assumption)⟩)
      | (rw [lookupPct_append_none _ (by assumption), lookupPct_cons]
         simp)

theorem free_after_resize (s : BMState) (name : String) (p : ℚ)
    (h : (lookupPct s.buckets "free").isSome) :
    (lookupPct (resize_bucket s name p).2.buckets "free").isSome := by
  rw [resize_bucket]
  dsimp only
  repeat' split
  all_goals
    first
      | exact h
      | exact (isSome_lookupPct_setPct _ _ _ _).mpr h
      | exact (isSome_lookupPct_setPct _ _ _ _).mpr ((isSome_lookupPct_setPct _ _ _ _).mpr h)

theorem free_after_add_amount (s : BMState) (name : String) (x : ℚ)
    (h : (lookupPct s.buckets "free").isSome) :
    (lookupPct (add_amount_to_bucket s name x).2.buckets "free").isSome := by
  rw [add_amount_to_bucket]
  dsimp only
  repeat' split
  all_goals
    first
      | exact h
      | exact (isSome_lookupPct_setPct _ _ _ _).mpr h
      | exact (isSome_lookupPct_setPct _ _ _ _).mpr ((isSome_lookupPct_setPct _ _ _ _).mpr h)

theorem free_after_sub_amount (s : BMState) (name : String) (x : ℚ)
    (h : (lookupPct s.buckets "free").isSome) :
    (lookupPct (subtract_amount_from_bucket s name x).2.buckets "free").isSome := by
  rw [subtract_amount_from_bucket]
  split
  · exact h
  · exact free_after_add_amount _ _ _ h

theorem free_after_auto_resize (s : BMState)
    (h : (lookupPct s.buckets "free").isSome) :
    (lookupPct (auto_resize_to_100_percent s).2.buckets "free").isSome := by
  rw [auto_resize_to_100_percent]
  dsimp only
  repeat' split
  all_goals
    first
      | exact h
      | exact (isSome_lookupPct_setPct _ _ _ _).mpr h
      | exact (isSome_lookupPct_scaleMap _ _ _).mpr h

theorem free_after_op (s : BMState) (op : BMOp)
    (h : (lookupPct s.buckets "free").isSome) :
    (lookupPct (applyOp s op).buckets "free").isSome := by
  cases op with
  | add n p => exact free_after_add s n p h
  | remove n => exact free_after_remove s n h
  | resize n p => exact free_after_resize s n p h
  | addAmount n x => exact free_after_add_amount s n x h
  | subAmount n x => exact free_after_sub_amount s n x h
  | autoResize => exact free_after_auto_resize s h
  | setBudget a => exact h

theorem free_after_runOps (s : BMState) (ops : List BMOp)
    (h : (lookupPct s.buckets "free").isSome) :
    (lookupPct (runOps s ops).buckets "free").isSome := by
  induction ops generalizing s with
  | nil => exact h
  | cons op ops ih => exact ih _ (free_after_op s op h)

/-! ## Total-percentage preservation under AddBucket and RemoveBucket -/

theorem lookupPct_mem {bs : BucketList} {n : String} {w : ℚ}
    (h : lookupPct bs n = some w) : ∃ b ∈ bs, b.1 = n ∧ b.2 = w := by
  rw [lookupPct] at h
  rcases hfind : bs.find? (fun b => b.1 = n) with _ | b
  · rw [hfind] at h
    simp at h
  · rw [hfind] at h
    refine ⟨b, List.mem_of_find?_eq_some hfind, ?_, ?_⟩
    · have := List.find?_some hfind
      simpa using this
    · simpa using h

theorem total_after_add (s : BMState) (name : String) (p : ℚ)
    (hfree : (lookupPct s.buckets "free").isSome) (ht : totalPct s.buckets = 100) :
    totalPct (add_bucket s name p).2.buckets = 100 := by
  obtain ⟨f, hf⟩ := Option.isSome_iff_exists.mp hfree
  rw [add_bucket]
  dsimp only
  rw [hf]
  dsimp only
  split
  · exact ht
  · split
    · exact ht
    · dsimp only
      rw [totalPct_append, totalPct_setPct _ hf, ht]
      simp [totalPct]

theorem total_after_remove (s : BMState) (name : String)
    (hfree : (lookupPct s.buckets "free").isSome) (ht : totalPct s.buckets = 100) :
    totalPct (remove_bucket s name).2.buckets = 100 := by
  rw [remove_bucket]
  dsimp only
  rcases hn : lookupPct s.buckets name with _ | w
  · exact ht
  · dsimp only
    split
    · exact ht
    · rename_i hnf
      obtain ⟨f, hf⟩ := Option.isSome_iff_exists.mp hfree
      have hfe : lookupPct (eraseKey s.buckets name) "free" = some f := by
        rw [lookupPct_eraseKey_ne _ (fun he => hnf he.symm)]
        exact hf
      rw [hfe]
      dsimp only
      rw [totalPct_setPct _ hfe, totalPct_eraseKey hn, ht]
      ring

theorem addRemove_inv (s : BMState) (ops : List BMOp)
    (hops : ∀ op ∈ ops, op.isAddRemove = true)
    (h : (lookupPct s.buckets "free").isSome ∧ totalPct s.buckets = 100) :
    (lookupPct (runOps s ops).buckets "free").isSome ∧
      totalPct (runOps s ops).buckets = 100 := by
  induction ops generalizing s with
  | nil => exact h
  | cons op ops ih =>
    have hop := hops op (List.mem_cons_self _ _)
    have hstep : (lookupPct (applyOp s op).buckets "free").isSome ∧
        totalPct (applyOp s op).buckets = 100 := by
      cases op with
      | add n p => exact ⟨free_after_add _ _ _ h.1, total_after_add _ _ _ h.1 h.2⟩
      | remove n => exact ⟨free_after_remove _ _ h.1, total_after_remove _ _ h.1 h.2⟩
      | resize n p => simp [BMOp.isAddRemove] at hop
      | addAmount n x => simp [BMOp.isAddRemove] at hop
      | subAmount n x => simp [BMOp.isAddRemove] at hop
      | autoResize => simp [BMOp.isAddRemove] at hop
      | setBudget a => simp [BMOp.isAddRemove] at hop
    exact ih _ (fun op hmem => hops op (List.mem_cons_of_mem _ hmem)) hstep

/-! ## Claims C10 and C1 -/

/-- C10: a bucket named "free" is present in every ledger state reachable
from construction through the public operations: the constructor creates it
at 100 percent, remove_bucket refuses to delete "free" on any state, and no
other operation removes it; hence a reachable ledger is never empty and the
branches guarded by "free" (or the bucket dictionary) being absent cannot
fire through the public interface. -/
theorem spec_C10_free_always_present (s : BMState) (h : Reachable s) :
    (lookupPct s.buckets "free").isSome ∧ s.buckets ≠ [] ∧
      (∀ tb : ℚ, lookupPct (mkManager tb).buckets "free" = some 100) ∧
      (∀ s' : BMState, remove_bucket s' "free" = (.failed, s')) := by
  obtain ⟨tb, ops, rfl⟩ := h
  have hfree : (lookupPct (runOps (mkManager tb) ops).buckets "free").isSome :=
    free_after_runOps _ _ (by simp [mkManager, lookupPct_cons])
  refine ⟨hfree, ?_, ?_, ?_⟩
  · intro hnil
    rw [lookupPct_isSome_iff, hnil] at hfree
    simp at hfree
  · intro tb'
    simp [mkManager, lookupPct_cons]
  · intro s'
    rcases hl : lookupPct s'.buckets "free" with _ | w <;>
      simp [remove_bucket, hl]

/-- Witness for C10 at the fresh manager. -/
theorem spec_C10_witness :
    (lookupPct (mkManager 0).buckets "free").isSome ∧ (mkManager 0).buckets ≠ [] := by
  have h := spec_C10_free_always_present (mkManager 0) ⟨0, [], rfl⟩
  exact ⟨h.1, h.2.1⟩

/-- C1 counterexample: from a fresh ledger the successful calls
AddBucket("a", 50) then ResizeBucket("a", 10) leave the total at 60 while
the "free" bucket still exists, so the Strategy A invariant
(total within tolerance of 100) does not survive ResizeBucket:
resize_bucket shrinks a bucket without returning the difference to "free". -/
theorem spec_C1_counterexample :
    (add_bucket (mkManager 0) "a" 50).1 = .ok ∧
    (resize_bucket (add_bucket (mkManager 0) "a" 50).2 "a" 10).1 = .ok ∧
    (lookupPct (resize_bucket (add_bucket (mkManager 0) "a" 50).2 "a" 10).2.buckets
      "free").isSome ∧
    get_total_percentage (resize_bucket (add_bucket (mkManager 0) "a" 50).2 "a" 10).2 = 60 ∧
    ¬ (|get_total_percentage (resize_bucket (add_bucket (mkManager 0) "a" 50).2 "a" 10).2
        - 100| ≤ 1/100) := by
  norm_num +decide [add_bucket, resize_bucket, mkManager, lookupPct, setPct, totalPct,
    get_total_percentage]

/-- C1 amended: after every sequence of AddBucket and RemoveBucket calls
(successful or not) from a fresh ledger, the "free" bucket exists and the
total percentage is exactly 100; ResizeBucket is excluded because it breaks
the invariant (see the counterexample). -/
theorem spec_C1_amended (tb : ℚ) (ops : List BMOp)
    (hops : ∀ op ∈ ops, op.isAddRemove = true) :
    (lookupPct (runOps (mkManager tb) ops).buckets "free").isSome ∧
      get_total_percentage (runOps (mkManager tb) ops) = 100 := by
  have h := addRemove_inv (mkManager tb) ops hops
    ⟨by simp [mkManager, lookupPct_cons], by simp [mkManager, totalPct]⟩
  exact ⟨h.1, h.2⟩

/-- Witness for the amended C1 on the sequence add "a" 30 then remove "a". -/
theorem spec_C1_witness :
    (∀ op ∈ [BMOp.add "a" 30, BMOp.remove "a"], op.isAddRemove = true) ∧
      get_total_percentage (runOps (mkManager 0) [BMOp.add "a" 30, BMOp.remove "a"]) = 100 :=
  ⟨by decide, (spec_C1_amended 0 [BMOp.add "a" 30, BMOp.remove "a"] (by decide)).2⟩

/-! ## Range invariant machinery (claim C7) -/

theorem rentEntries_total_of_nodup (bs : BucketList)
    (h : (bs.map Prod.fst).Nodup) :
    totalPct (rentEntries bs) = (lookupPct bs "rent").getD 0 := by
  induction bs with
  | nil => simp [rentEntries, totalPct, lookupPct]
  | cons b bs ih =>
    rw [List.map_cons, List.nodup_cons] at h
    by_cases hb : b.1 = "rent"
    · have hnot : "rent" ∉ bs.map Prod.fst := hb ▸ h.1
      have hnil : rentEntries bs = [] := by
        rw [rentEntries, List.filter_eq_nil_iff]
        intro a ha
        simp only [decide_eq_true_eq]
        intro har
        exact hnot (har ▸ List.mem_map_of_mem Prod.fst ha)
      rw [rentEntries] at hnil
      simp [rentEntries, List.filter_cons, hb, lookupPct_cons, hnil, totalPct]
    · simp [rentEntries, List.filter_cons, hb, lookupPct_cons, totalPct]
      exact ih h.2

theorem totalPct_split (bs : BucketList) :
    totalPct bs = totalPct (rentEntries bs) + totalPct (otherBuckets bs) := by
  induction bs with
  | nil => simp [rentEntries, otherBuckets, totalPct]
  | cons b bs ih =>
    by_cases hb : b.1 = "rent"
    · simp only [rentEntries, otherBuckets, totalPct, List.filter_cons] at ih ⊢
      simp [hb, ih]
      ring
    · simp only [rentEntries, otherBuckets, totalPct, List.filter_cons] at ih ⊢
      simp [hb, ih]
      ring

theorem setPct_eq_self {bs : BucketList} {n : String} {w : ℚ}
    (h : lookupPct bs n = some w) : setPct bs n w = bs := by
  induction bs with
  | nil => simp [lookupPct] at h
  | cons b bs ih =>
    obtain ⟨b1, b2⟩ := b
    by_cases hb : b1 = n
    · rw [lookupPct_cons, if_pos hb] at h
      have hw : b2 = w := Option.some.inj h
      subst hb
      subst hw
      simp [setPct]
    · rw [lookupPct_cons, if_neg hb] at h
      simp [setPct, hb, ih h]

theorem otherBuckets_ne_nil_of_free {bs : BucketList} {f : ℚ}
    (hf : lookupPct bs "free" = some f) : otherBuckets bs ≠ [] := by
  obtain ⟨b, hb, hb1, _⟩ := lookupPct_mem hf
  have hmem : b ∈ otherBuckets bs := by
    rw [otherBuckets, List.mem_filter]
    exact ⟨hb, by simp [hb1]⟩
  exact List.ne_nil_of_mem hmem

theorem keys_eraseKey_sublist (bs : BucketList) (n : String) :
    ((eraseKey bs n).map Prod.fst).Sublist (bs.map Prod.fst) := by
  induction bs with
  | nil => simp [eraseKey]
  | cons b bs ih =>
    by_cases hb : b.1 = n
    · rw [eraseKey, if_pos hb, List.map_cons]
      exact List.sublist_cons_self _ _
    · rw [eraseKey, if_neg hb, List.map_cons, List.map_cons]
      exact List.Sublist.cons₂ _ ih

theorem nodup_after_add (s : BMState) (name : String) (p : ℚ)
    (h : (s.buckets.map Prod.fst).Nodup) :
    ((add_bucket s name p).2.buckets.map Prod.fst).Nodup := by
  rw [add_bucket]
  by_cases hdup : (lookupPct s.buckets name).isSome
  · rw [if_pos hdup]
    exact h
  · rw [if_neg hdup]
    have hfresh : name ∉ s.buckets.map Prod.fst := by
      rw [← lookupPct_isSome_iff]
      exact fun hs => hdup hs
    have happ : ∀ (cs : BucketList) (q : ℚ), cs.map Prod.fst = s.buckets.map Prod.fst →
        ((cs ++ [(name, q)]).map Prod.fst).Nodup := by
      intro cs q hcs
      rw [List.map_append, hcs, List.nodup_append]
      refine ⟨h, by simp, ?_⟩
      intro a ha hmem
      simp only [List.map_cons, List.map_nil, List.mem_singleton] at hmem
      rw [hmem] at ha
      exact hfresh ha
    rcases hf : lookupPct s.buckets "free" with _ | f
    · dsimp only
      split
      · exact h
      · exact happ _ _ rfl
    · dsimp only
      split
      · exact h
      · exact happ _ _ (keys_setPct _ _ _)

theorem nodup_after_remove (s : BMState) (name : String)
    (h : (s.buckets.map Prod.fst).Nodup) :
    ((remove_bucket s name).2.buckets.map Prod.fst).Nodup := by
  have herase : ((eraseKey s.buckets name).map Prod.fst).Nodup :=
    (keys_eraseKey_sublist s.buckets name).nodup h
  rw [remove_bucket]
  rcases hn : lookupPct s.buckets name with _ | w
  · exact h
  · try dsimp only
    split
    · exact h
    · try dsimp only
      rcases hfe : lookupPct (eraseKey s.buckets name) "free" with _ | f
      · try dsimp only
        rw [List.map_append, List.nodup_append]
        refine ⟨herase, by simp, ?_⟩
        intro a ha hmem
        simp only [List.map_cons, List.map_nil, List.mem_singleton] at hmem
        rw [hmem] at ha
        exact (lookupPct_eq_none_iff _ _).mp hfe ha
      · try dsimp only
        rw [keys_setPct]
        exact herase

/-- On any state with "free" present, a total of exactly 100 and unique
keys, auto_resize_to_100_percent leaves the state unchanged: the scaling
factor is (100 - rent)/(100 - rent) = 1, and the zero-sum branch can only
fire with rent already at 100, which it rewrites to 100. -/
theorem auto_resize_good_identity (s : BMState)
    (hfree : (lookupPct s.buckets "free").isSome)
    (htotal : totalPct s.buckets = 100)
    (hkeys : (s.buckets.map Prod.fst).Nodup) :
    (auto_resize_to_100_percent s).2 = s := by
  obtain ⟨f, hf⟩ := Option.isSome_iff_exists.mp hfree
  have hbs : ¬ (s.buckets = []) := by
    intro hnil
    rw [lookupPct_isSome_iff, hnil] at hfree
    simp at hfree
  have hothers := otherBuckets_ne_nil_of_free hf
  have hrentD := rentEntries_total_of_nodup s.buckets hkeys
  have hsplitT := totalPct_split s.buckets
  rw [auto_resize_to_100_percent, if_neg hbs]
  try dsimp only
  rw [if_neg (fun hc => hothers hc.1)]
  try dsimp only
  by_cases hz : totalPct (otherBuckets s.buckets) = 0
  · rw [if_pos hz]
    rcases hr : lookupPct s.buckets "rent" with _ | r
    · rfl
    · try dsimp only
      rw [hr] at hrentD
      simp only [Option.getD_some] at hrentD
      have hr100 : r = 100 := by
        rw [hsplitT, hrentD, hz] at htotal
        linarith
      have hset : setPct s.buckets "rent" 100 = s.buckets := by
        rw [← hr100]
        exact setPct_eq_self hr
      show ({ s with buckets := setPct s.buckets "rent" 100 } : BMState) = s
      rw [hset]
  · rw [if_neg hz]
    try dsimp only
    have hfac : (100 - (lookupPct s.buckets "rent").getD 0)
        / totalPct (otherBuckets s.buckets) = 1 := by
      have he : (100 : ℚ) - (lookupPct s.buckets "rent").getD 0
          = totalPct (otherBuckets s.buckets) := by
        rw [← hrentD]
        linarith [hsplitT, htotal]
      rw [he, div_self hz]
    simp only [hfac]
    have hmap : s.buckets.map (fun b => if b.1 = "rent" then b else (b.1, b.2 * 1))
        = s.buckets := by
      have hcg : ∀ b ∈ s.buckets,
          (if b.1 = "rent" then b else (b.1, b.2 * 1)) = id b := by
        intro b _
        by_cases hb : b.1 = "rent" <;> simp [hb]
      rw [List.map_congr_left hcg, List.map_id]
    show ({ s with buckets := _ } : BMState) = s
    rw [hmap]

theorem nonneg_after_add (s : BMState) (name : String) (p : ℚ) (hp : 0 ≤ p)
    (hfree : (lookupPct s.buckets "free").isSome)
    (hnn : ∀ b ∈ s.buckets, 0 ≤ b.2) :
    ∀ b ∈ (add_bucket s name p).2.buckets, 0 ≤ b.2 := by
  obtain ⟨f, hf⟩ := Option.isSome_iff_exists.mp hfree
  have hfnn : 0 ≤ f := by
    obtain ⟨b, hb, _, hw⟩ := lookupPct_mem hf
    exact hw ▸ hnn b hb
  have hpmin : 0 ≤ (if p > f then f else p) := by
    split
    · exact hfnn
    · exact hp
  have hfp : (if p > f then f else p) ≤ f := by
    split
    · exact le_refl f
    · rename_i hgt
      exact le_of_not_lt hgt
  rw [add_bucket]
  dsimp only
  rw [hf]
  dsimp only
  split
  · exact hnn
  · split
    · exact hnn
    · dsimp only
      intro b hb
      rcases List.mem_append.mp hb with hb | hb
      · rcases mem_setPct hb with hb | rfl
        · exact hnn b hb
        · simpa using sub_nonneg.mpr hfp
      · rw [List.mem_singleton.mp hb]
        simpa using hpmin

theorem nonneg_after_remove (s : BMState) (name : String)
    (hfree : (lookupPct s.buckets "free").isSome)
    (hnn : ∀ b ∈ s.buckets, 0 ≤ b.2) :
    ∀ b ∈ (remove_bucket s name).2.buckets, 0 ≤ b.2 := by
  rw [remove_bucket]
  dsimp only
  rcases hn : lookupPct s.buckets name with _ | w
  · exact hnn
  · dsimp only
    have hw : 0 ≤ w := by
      obtain ⟨b, hb, _, hbw⟩ := lookupPct_mem hn
      exact hbw ▸ hnn b hb
    split
    · exact hnn
    · rename_i hnf
      obtain ⟨f, hf⟩ := Option.isSome_iff_exists.mp hfree
      have hfe : lookupPct (eraseKey s.buckets name) "free" = some f := by
        rw [lookupPct_eraseKey_ne _ (fun he => hnf he.symm)]
        exact hf
      rw [hfe]
      dsimp only
      intro b hb
      rcases mem_setPct hb with hb | rfl
      · exact hnn b (mem_eraseKey hb)
      · have hfnn : 0 ≤ f := by
          obtain ⟨b', hb', _, hbw⟩ := lookupPct_mem hf
          exact hbw ▸ hnn b' hb'
        simpa using add_nonneg hfnn hw

/-- The inductive invariant for the range claim: "free" present, total
exactly 100, every percentage nonnegative, keys unique. -/
def GoodState (s : BMState) : Prop :=
  (lookupPct s.buckets "free").isSome ∧ totalPct s.buckets = 100 ∧
    (∀ b ∈ s.buckets, 0 ≤ b.2) ∧ (s.buckets.map Prod.fst).Nodup

theorem good_inv (s : BMState) (ops : List BMOp)
    (hops : ∀ op ∈ ops, op.isRangeSafe = true)
    (h : GoodState s) : GoodState (runOps s ops) := by
  induction ops generalizing s with
  | nil => exact h
  | cons op ops ih =>
    have hop := hops op (List.mem_cons_self _ _)
    have hstep : GoodState (applyOp s op) := by
      obtain ⟨h1, h2, h3, h4⟩ := h
      cases op with
      | add n p =>
        have hp : 0 ≤ p := by simpa [BMOp.isRangeSafe] using hop
        exact ⟨free_after_add _ _ _ h1, total_after_add _ _ _ h1 h2,
          nonneg_after_add _ _ _ hp h1 h3, nodup_after_add _ _ _ h4⟩
      | remove n =>
        exact ⟨free_after_remove _ _ h1, total_after_remove _ _ h1 h2,
          nonneg_after_remove _ _ h1 h3, nodup_after_remove _ _ h4⟩
      | autoResize =>
        show GoodState (auto_resize_to_100_percent s).2
        rw [auto_resize_good_identity s h1 h2 h4]
        exact ⟨h1, h2, h3, h4⟩
      | setBudget a => exact ⟨h1, h2, h3, h4⟩
      | resize n p => simp [BMOp.isRangeSafe] at hop
      | addAmount n x => simp [BMOp.isRangeSafe] at hop
      | subAmount n x => simp [BMOp.isRangeSafe] at hop
    exact ih _ (fun op hmem => hops op (List.mem_cons_of_mem _ hmem)) hstep

/-- C7 counterexample: the reachable state obtained by AddBucket("a", 50)
then ResizeBucket("a", -5) (both successful) holds bucket "a" at the
percentage -5, outside [0, 100]: resize_bucket never checks the sign of
its argument. -/
theorem spec_C7_counterexample :
    lookupPct (runOps (mkManager 0) [.add "a" 50, .resize "a" (-5)]).buckets "a"
      = some (-5) ∧
    (add_bucket (mkManager 0) "a" 50).1 = .ok ∧
    (resize_bucket (add_bucket (mkManager 0) "a" 50).2 "a" (-5)).1 = .ok ∧
    ((-5 : ℚ) < 0) := by
  norm_num +decide [runOps, applyOp, List.foldl, add_bucket, resize_bucket, mkManager,
    lookupPct, setPct, totalPct]

/-- C7 amended: every bucket percentage stays inside [0, 100] in every
state reachable through AddBucket with a nonnegative requested percentage,
RemoveBucket, AutoResizeTo100Percent and SetTotalBudget — on these states
the total is exactly 100 with unique keys, so the auto-resize is the
identity.  Only the genuinely invariant-breaking operations are excluded:
ResizeBucket (which accepts negative arguments and, on the "free" bucket,
can push the total and hence a later "free" above 100) and the dollar
operations (whose 0.01 tolerance lets a bucket overshoot 100). -/
theorem spec_C7_amended (tb : ℚ) (ops : List BMOp)
    (hops : ∀ op ∈ ops, op.isRangeSafe = true) :
    ∀ b ∈ (runOps (mkManager tb) ops).buckets, 0 ≤ b.2 ∧ b.2 ≤ 100 := by
  have h : GoodState (runOps (mkManager tb) ops) := by
    apply good_inv (mkManager tb) ops hops
    refine ⟨by simp [mkManager, lookupPct_cons], by simp [mkManager, totalPct], ?_,
      by simp [mkManager]⟩
    intro b hb
    simp only [mkManager, List.mem_singleton] at hb
    rw [hb]
    norm_num
  intro b hb
  exact ⟨h.2.2.1 b hb, h.2.1 ▸ pct_le_totalPct h.2.2.1 b hb⟩

/-- Witness for the amended C7 on a sequence that exercises add, the
auto-resize, a budget update and a removal. -/
theorem spec_C7_witness :
    (∀ op ∈ [BMOp.add "a" 30, BMOp.autoResize, BMOp.setBudget 500, BMOp.remove "a"],
      op.isRangeSafe = true) ∧
    ∀ b ∈ (runOps (mkManager 0)
        [BMOp.add "a" 30, BMOp.autoResize, BMOp.setBudget 500, BMOp.remove "a"]).buckets,
      0 ≤ b.2 ∧ b.2 ≤ 100 :=
  ⟨by decide, spec_C7_amended 0
    [BMOp.add "a" 30, BMOp.autoResize, BMOp.setBudget 500, BMOp.remove "a"] (by decide)⟩

/-! ## Claim C3: ResizeBucket atomicity -/

/-- C3: resize_bucket is atomic.  Whenever it does not succeed — the name
is absent (ValueError) or the new percentage is infeasible even after
shrinking "free" to zero — the resulting state is exactly the pre-call
state (the zeroed "free" is restored bit for bit); whenever it succeeds the
target bucket carries the new percentage, the total budget is untouched and
every bucket other than the target and "free" keeps its percentage. -/
theorem spec_C3_resize_atomic (s : BMState) (name : String) (p : ℚ) :
    ((resize_bucket s name p).1 ≠ .ok → (resize_bucket s name p).2 = s) ∧
    ((resize_bucket s name p).1 = .ok →
      lookupPct (resize_bucket s name p).2.buckets name = some p ∧
      (resize_bucket s name p).2.total_budget = s.total_budget ∧
      ∀ m, m ≠ name → m ≠ "free" →
        lookupPct (resize_bucket s name p).2.buckets m = lookupPct s.buckets m) := by
  rcases hn : lookupPct s.buckets name with _ | w
  · rw [resize_bucket, hn]
    exact ⟨fun _ => rfl, fun h => absurd h (by simp)⟩
  · rw [resize_bucket, hn]
    dsimp only
    split
    · rcases hf : lookupPct s.buckets "free" with _ | f
      · exact ⟨fun _ => rfl, fun h => absurd h (by simp)⟩
      · dsimp only
        split
        · split
          · constructor
            · intro _
              show ({ s with buckets := setPct (setPct s.buckets "free" 0) "free" f } : BMState) = s
              rw [setPct_revert _ hf]
            · intro h
              exact absurd h (by simp)
          · constructor
            · intro h
              exact absurd rfl h
            · intro _
              refine ⟨?_, rfl, ?_⟩
              · by_cases hnf : name = "free"
                · rw [hnf]
                  exact lookupPct_setPct_self _ (lookupPct_setPct_self _ hf)
                · have hw1 : lookupPct (setPct s.buckets "free" 0) name = some w := by
                    rw [lookupPct_setPct_ne _ _ hnf]
                    exact hn
                  exact lookupPct_setPct_self _ hw1
              · intro m hm hmf
                rw [lookupPct_setPct_ne _ _ hm, lookupPct_setPct_ne _ _ hmf]
        · exact ⟨fun _ => rfl, fun h => absurd h (by simp)⟩
    · constructor
      · intro h
        exact absurd rfl h
      · intro _
        refine ⟨lookupPct_setPct_self _ hn, rfl, ?_⟩
        intro m hm _
        rw [lookupPct_setPct_ne _ _ hm]

/-- Witness for C3: resizing the missing bucket "a" on a fresh manager
fails and leaves the state untouched. -/
theorem spec_C3_witness : (resize_bucket (mkManager 0) "a" 10).2 = mkManager 0 :=
  (spec_C3_resize_atomic (mkManager 0) "a" 10).1
    (by norm_num +decide [resize_bucket, mkManager, lookupPct, setPct, totalPct])

/-! ## Claim C2: AddBucket under the free-bucket policy -/

/-- C2 counterexample: after AddBucket("a", 100) the "free" bucket exists
(at 0 percent) and "b" is fresh, yet AddBucket("b", 10) fails — the code
returns False the moment free is exactly 0, so an add can fail solely for
lack of free capacity although "free" exists. -/
theorem spec_C2_counterexample :
    lookupPct (add_bucket (mkManager 0) "a" 100).2.buckets "free" = some 0 ∧
    lookupPct (add_bucket (mkManager 0) "a" 100).2.buckets "b" = none ∧
    (add_bucket (add_bucket (mkManager 0) "a" 100).2 "b" 10).1 = .failed ∧
    (add_bucket (add_bucket (mkManager 0) "a" 100).2 "b" 10).2
      = (add_bucket (mkManager 0) "a" 100).2 := by
  norm_num +decide [add_bucket, mkManager, lookupPct, setPct, totalPct]

/-- C2 amended: for a fresh name with "free" present at percentage f, the
add fails (unchanged state) exactly when f = 0; when f is nonzero it
succeeds, grants min(requested, f) — the request clamped to what free can
supply — and shrinks "free" by the granted amount; adding an existing name
raises the duplicate-name ValueError. -/
theorem spec_C2_amended (s : BMState) (name : String) (p f : ℚ)
    (hfresh : lookupPct s.buckets name = none)
    (hf : lookupPct s.buckets "free" = some f) :
    (f = 0 → add_bucket s name p = (.failed, s)) ∧
    (f ≠ 0 →
      (add_bucket s name p).1 = .ok ∧
      lookupPct (add_bucket s name p).2.buckets name = some (if p > f then f else p) ∧
      lookupPct (add_bucket s name p).2.buckets "free"
        = some (f - (if p > f then f else p)) ∧
      (add_bucket s name p).2.total_budget = s.total_budget) ∧
    (∀ (t : BMState) (m : String) (q : ℚ), (lookupPct t.buckets m).isSome →
      add_bucket t m q = (.valueError, t)) := by
  have hnotSome : ¬ (lookupPct s.buckets name).isSome = true := by
    rw [hfresh]
    simp
  refine ⟨?_, ?_, ?_⟩
  · intro h0
    rw [add_bucket, if_neg hnotSome, hf]
    dsimp only
    rw [if_pos h0]
  · intro hne
    rw [add_bucket, if_neg hnotSome, hf]
    dsimp only
    rw [if_neg hne]
    refine ⟨rfl, ?_, ?_, rfl⟩
    · have hset : lookupPct (setPct s.buckets "free" (f - if p > f then f else p)) name
          = none := by
        rw [lookupPct_eq_none_iff, keys_setPct]
        exact (lookupPct_eq_none_iff _ _).mp hfresh
      rw [lookupPct_append_none _ hset, lookupPct_cons]
      simp
    · exact lookupPct_append_some _ (lookupPct_setPct_self _ hf)
  · intro t m q h
    rw [add_bucket, if_pos h]

/-- Witness for the amended C2: a fresh manager grants AddBucket("a", 30)
in full. -/
theorem spec_C2_witness :
    (100 : ℚ) ≠ 0 ∧ (add_bucket (mkManager 0) "a" 30).1 = .ok :=
  ⟨by norm_num,
    ((spec_C2_amended (mkManager 0) "a" 30 100 (by decide) (by decide)).2.1
      (by norm_num)).1⟩

/-! ## Claim C5: AddAmountToBucket -/

/-- On success, the target bucket of add_amount_to_bucket ends at the
dollar-clamped percentage computed by the source. -/
theorem add_amount_target {s : BMState} {name : String} {x old : ℚ}
    (hold : lookupPct s.buckets name = some old)
    (hok : (add_amount_to_bucket s name x).1 = .ok) :
    lookupPct (add_amount_to_bucket s name x).2.buckets name
      = some (max (old / 100 * s.total_budget + x) 0 / s.total_budget * 100) := by
  have hmax : max (old / 100 * s.total_budget + x) 0
      = if old / 100 * s.total_budget + x < 0 then 0 else old / 100 * s.total_budget + x := by
    rcases lt_or_le (old / 100 * s.total_budget + x) 0 with h | h
    · simp [h, max_eq_right h.le]
    · simp [not_lt.mpr h, max_eq_left h]
  rw [add_amount_to_bucket, hold] at hok ⊢
  dsimp only at hok ⊢
  rw [hmax]
  set np := (if old / 100 * s.total_budget + x < 0 then 0
    else old / 100 * s.total_budget + x) / s.total_budget * 100 with hnp
  by_cases hB : s.total_budget ≤ 0
  · rw [if_pos hB] at hok
    exact absurd hok (by simp)
  · rw [if_neg hB] at hok ⊢
    by_cases hnf : name = "free"
    · rw [if_pos hnf] at hok ⊢
      by_cases htol : |totalPct s.buckets - old + np - 100| > 1/100
      · rw [if_pos htol] at hok
        exact absurd hok (by simp)
      · rw [if_neg htol]
        exact lookupPct_setPct_self _ hold
    · rw [if_neg hnf] at hok ⊢
      rcases hfs : lookupPct s.buckets "free" with _ | f
      · rw [hfs] at hok
        dsimp only at hok ⊢
        by_cases hpt : totalPct s.buckets - old + np > 100 + 1/1000000
        · rw [if_pos hpt] at hok
          exact absurd hok (by simp)
        · rw [if_neg hpt]
          exact lookupPct_setPct_self _ hold
      · rw [hfs] at hok
        dsimp only at hok ⊢
        by_cases hfn : f - (np - old) < -(1/100)
        · rw [if_pos hfn] at hok
          exact absurd hok (by simp)
        · rw [if_neg hfn]
          rw [lookupPct_setPct_ne _ _ hnf]
          exact lookupPct_setPct_self _ hold

/-- The total budget is never changed by add_amount_to_bucket. -/
theorem add_amount_budget (s : BMState) (name : String) (x : ℚ) :
    (add_amount_to_bucket s name x).2.total_budget = s.total_budget := by
  rw [add_amount_to_bucket]
  dsimp only
  repeat' split
  all_goals rfl

/-- C5: add_amount_to_bucket fails (leaving the state unchanged) whenever
the name is absent or the total budget is not positive; on success the
target percentage is max(old dollars + amount, 0) converted back through
the total budget; concretely, with a 2000 budget and food at 10 percent,
adding 100 dollars makes food 15 percent (and free 85). -/
theorem spec_C5_add_amount (s : BMState) (name : String) (x : ℚ) :
    (lookupPct s.buckets name = none → add_amount_to_bucket s name x = (.failed, s)) ∧
    (s.total_budget ≤ 0 → add_amount_to_bucket s name x = (.failed, s)) ∧
    (∀ old, lookupPct s.buckets name = some old →
      (add_amount_to_bucket s name x).1 = .ok →
      lookupPct (add_amount_to_bucket s name x).2.buckets name
        = some (max (old / 100 * s.total_budget + x) 0 / s.total_budget * 100)) ∧
    add_amount_to_bucket ⟨[("free", 90), ("food", 10)], 2000⟩ "food" 100
      = (.ok, ⟨[("free", 85), ("food", 15)], 2000⟩) := by
  refine ⟨?_, ?_, ?_, ?_⟩
  · intro h
    rw [add_amount_to_bucket, h]
  · intro h
    rcases hn : lookupPct s.buckets name with _ | old
    · rw [add_amount_to_bucket, hn]
    · rw [add_amount_to_bucket, hn]
      dsimp only
      rw [if_pos h]
  · intro old hold hok
    exact add_amount_target hold hok
  · norm_num +decide [add_amount_to_bucket, lookupPct, setPct, totalPct]

/-- Witness for C5 at the documented scenario. -/
theorem spec_C5_witness :
    lookupPct (add_amount_to_bucket ⟨[("free", 90), ("food", 10)], 2000⟩ "food" 100).2.buckets
      "food" = some (max ((10 : ℚ) / 100 * 2000 + 100) 0 / 2000 * 100) :=
  (spec_C5_add_amount ⟨[("free", 90), ("food", 10)], 2000⟩ "food" 100).2.2.1 10
    (by decide)
    (by norm_num +decide [add_amount_to_bucket, lookupPct, setPct, totalPct])

/-! ## Claim C9: add/subtract round trip -/

/-- subtract_amount_from_bucket coincides with add_amount_to_bucket on the
negated amount, also when the name is absent. -/
theorem subtract_eq_add_neg (s : BMState) (name : String) (x : ℚ) :
    subtract_amount_from_bucket s name x = add_amount_to_bucket s name (-x) := by
  rw [subtract_amount_from_bucket]
  rcases hn : lookupPct s.buckets name with _ | w
  · rw [add_amount_to_bucket, hn]
  · rfl

/-- C9 counterexample: on the ledger reached by AddBucket("a", 100) with a
100 budget (free = 0), AddAmountToBucket("a", 10) fails (free cannot
absorb the delta) but the following SubtractAmountFromBucket("a", 10)
succeeds, leaving "a" at 90 percent instead of its original 100 — the
round trip does not restore the percentage when the two calls do not both
succeed. -/
theorem spec_C9_counterexample :
    lookupPct (add_bucket (mkManager 100) "a" 100).2.buckets "a" = some 100 ∧
    (add_amount_to_bucket (add_bucket (mkManager 100) "a" 100).2 "a" 10).1 = .failed ∧
    lookupPct (subtract_amount_from_bucket
      (add_amount_to_bucket (add_bucket (mkManager 100) "a" 100).2 "a" 10).2
      "a" 10).2.buckets "a" = some 90 ∧
    ¬ (|(90 : ℚ) - 100| ≤ 1/100) := by
  norm_num +decide [add_bucket, add_amount_to_bucket, subtract_amount_from_bucket,
    mkManager, lookupPct, setPct, totalPct]

/-- C9 amended: when the bucket exists with a nonnegative percentage, the
dollar value stays nonnegative after the addition (the zero clamp does not
fire), and both calls succeed, AddAmountToBucket(name, x) followed by
SubtractAmountFromBucket(name, x) restores the percentage exactly; and
SubtractAmountFromBucket is definitionally AddAmountToBucket on the
negated amount. -/
theorem spec_C9_amended (s : BMState) (name : String) (x old : ℚ)
    (hold : lookupPct s.buckets name = some old)
    (hold0 : 0 ≤ old)
    (hnd : 0 ≤ old / 100 * s.total_budget + x)
    (h1 : (add_amount_to_bucket s name x).1 = .ok)
    (h2 : (subtract_amount_from_bucket (add_amount_to_bucket s name x).2 name x).1 = .ok) :
    lookupPct (subtract_amount_from_bucket
        (add_amount_to_bucket s name x).2 name x).2.buckets name = some old ∧
    subtract_amount_from_bucket s name x = add_amount_to_bucket s name (-x) := by
  refine ⟨?_, subtract_eq_add_neg s name x⟩
  have hB : ¬ s.total_budget ≤ 0 := by
    intro hb
    rw [add_amount_to_bucket, hold] at h1
    dsimp only at h1
    rw [if_pos hb] at h1
    exact absurd h1 (by simp)
  have hBpos : 0 < s.total_budget := not_le.mp hB
  have hBne : s.total_budget ≠ 0 := ne_of_gt hBpos
  have hBudget : (add_amount_to_bucket s name x).2.total_budget = s.total_budget :=
    add_amount_budget s name x
  have htar : lookupPct (add_amount_to_bucket s name x).2.buckets name
      = some ((old / 100 * s.total_budget + x) / s.total_budget * 100) := by
    have h := add_amount_target hold h1
    rw [max_eq_left hnd] at h
    exact h
  rw [subtract_eq_add_neg] at h2 ⊢
  have key := add_amount_target htar h2
  rw [key]
  congr 1
  rw [hBudget]
  have e1 : (old / 100 * s.total_budget + x) / s.total_budget * 100 / 100 * s.total_budget
      + -x = old / 100 * s.total_budget := by
    field_simp
    ring
  rw [e1]
  have e2 : max (old / 100 * s.total_budget) 0 = old / 100 * s.total_budget :=
    max_eq_left (mul_nonneg (div_nonneg hold0 (by norm_num)) hBpos.le)
  rw [e2]
  field_simp
  ring

/-- Witness for the amended C9: food at 10 percent, budget 2000, add then
subtract 100 dollars. -/
theorem spec_C9_witness :
    lookupPct (subtract_amount_from_bucket
        (add_amount_to_bucket ⟨[("free", 90), ("food", 10)], 2000⟩ "food" 100).2
        "food" 100).2.buckets "food" = some 10 :=
  (spec_C9_amended ⟨[("free", 90), ("food", 10)], 2000⟩ "food" 100 10
    (by decide)
    (by norm_num)
    (by norm_num)
    (by norm_num +decide [add_amount_to_bucket, lookupPct, setPct, totalPct])
    (by norm_num +decide [add_amount_to_bucket, subtract_amount_from_bucket,
      lookupPct, setPct, totalPct])).1

/-! ## Claim C4: AutoResizeTo100Percent -/

theorem lookupPct_scaleMap_rent (bs : BucketList) (c : ℚ) :
    lookupPct (bs.map (fun b => if b.1 = "rent" then b else (b.1, b.2 * c))) "rent"
      = lookupPct bs "rent" := by
  induction bs with
  | nil => rfl
  | cons b bs ih =>
    by_cases hb : b.1 = "rent"
    · simp [lookupPct_cons, hb]
    · simp [lookupPct_cons, hb, ih]

theorem lookupPct_scaleMap_ne (bs : BucketList) (c : ℚ) (n : String) (hn : n ≠ "rent") :
    lookupPct (bs.map (fun b => if b.1 = "rent" then b else (b.1, b.2 * c))) n
      = (lookupPct bs n).map (fun q => q * c) := by
  induction bs with
  | nil => rfl
  | cons b bs ih =>
    by_cases hb : b.1 = "rent"
    · have hbn : ¬ (b.1 = n) := fun he => hn (he.symm.trans hb)
      simp [lookupPct_cons, hb, hbn, Ne.symm hn, ih]
    · by_cases hbn : b.1 = n
      · simp [lookupPct_cons, hb, hbn, hn]
      · simp [lookupPct_cons, hb, hbn, hn, ih]

theorem totalPct_scaleMap (bs : BucketList) (c : ℚ) :
    totalPct (bs.map (fun b => if b.1 = "rent" then b else (b.1, b.2 * c)))
      = totalPct (rentEntries bs) + c * totalPct (otherBuckets bs) := by
  induction bs with
  | nil => simp [rentEntries, otherBuckets, totalPct]
  | cons b bs ih =>
    by_cases hb : b.1 = "rent"
    · simp only [rentEntries, otherBuckets, totalPct] at ih ⊢
      rw [List.map_map] at ih
      simp [List.filter_cons, hb, ih]
      ring
    · simp only [rentEntries, otherBuckets, totalPct] at ih ⊢
      rw [List.map_map] at ih
      simp [List.filter_cons, hb, ih]
      ring

/-- C4 counterexample: on the ledger holding only a bucket named "rent" at
50 percent the non-rent buckets sum to zero and "rent" exists, yet
auto_resize_to_100_percent succeeds while leaving rent at 50 instead of
setting it to 100 — the all-rent early return contradicts the claimed
zero-sum behaviour. -/
theorem spec_C4_counterexample :
    otherBuckets (⟨[("rent", 50)], 0⟩ : BMState).buckets = [] ∧
    (lookupPct (⟨[("rent", 50)], 0⟩ : BMState).buckets "rent").isSome ∧
    auto_resize_to_100_percent ⟨[("rent", 50)], 0⟩ = (.ok, ⟨[("rent", 50)], 0⟩) ∧
    ((50 : ℚ) ≠ 100) := by
  norm_num +decide [otherBuckets, auto_resize_to_100_percent, lookupPct, totalPct, setPct]

/-- C4 amended: with unique bucket names, auto_resize_to_100_percent
fails exactly on the empty dictionary or when the non-rent buckets are
nonempty, sum to zero and no "rent" bucket exists; when every bucket is
named "rent" it succeeds changing nothing (instead of setting rent to 100
as the claim states); when the non-rent buckets are nonempty and sum to
zero with "rent" present, rent is set to 100; otherwise it succeeds,
leaves "rent" numerically unchanged, multiplies every other bucket by
(100 - rent) / (sum of non-rent) and the total lands exactly on 100. -/
theorem spec_C4_amended (s : BMState) (hkeys : (s.buckets.map Prod.fst).Nodup) :
    (s.buckets = [] → auto_resize_to_100_percent s = (.failed, s)) ∧
    (s.buckets ≠ [] → otherBuckets s.buckets = [] →
      auto_resize_to_100_percent s = (.ok, s)) ∧
    (otherBuckets s.buckets ≠ [] → totalPct (otherBuckets s.buckets) = 0 →
      ((lookupPct s.buckets "rent").isSome →
        (auto_resize_to_100_percent s).1 = .ok ∧
        lookupPct (auto_resize_to_100_percent s).2.buckets "rent" = some 100) ∧
      (lookupPct s.buckets "rent" = none →
        auto_resize_to_100_percent s = (.failed, s))) ∧
    (totalPct (otherBuckets s.buckets) ≠ 0 →
      (auto_resize_to_100_percent s).1 = .ok ∧
      lookupPct (auto_resize_to_100_percent s).2.buckets "rent"
        = lookupPct s.buckets "rent" ∧
      (∀ n q, n ≠ "rent" → lookupPct s.buckets n = some q →
        lookupPct (auto_resize_to_100_percent s).2.buckets n
          = some (q * ((100 - (lookupPct s.buckets "rent").getD 0)
              / totalPct (otherBuckets s.buckets)))) ∧
      get_total_percentage (auto_resize_to_100_percent s).2 = 100) := by
  refine ⟨?_, ?_, ?_, ?_⟩
  · intro h
    rw [auto_resize_to_100_percent, if_pos h]
  · intro hne hothers
    have hsome : (lookupPct s.buckets "rent").isSome := by
      rcases hbs : s.buckets with _ | ⟨b, t⟩
      · exact absurd hbs hne
      · have hothers2 := hothers
        rw [hbs, otherBuckets] at hothers2
        have hall := List.filter_eq_nil_iff.mp hothers2
        have hb := hall b (List.mem_cons_self _ _)
        simp at hb
        rw [lookupPct_isSome_iff, List.map_cons, ← hb]
        exact List.mem_cons_self _ _
    rw [auto_resize_to_100_percent, if_neg hne]
    try dsimp only
    rw [if_pos ⟨hothers, hsome⟩]
  · intro hothers hzero
    have hbs : ¬ (s.buckets = []) := by
      intro hnil
      exact hothers (by rw [hnil]; rfl)
    have hc2 : ¬ (otherBuckets s.buckets = [] ∧
        (lookupPct s.buckets "rent").isSome = true) := by
      intro hc
      exact hothers hc.1
    constructor
    · intro hsome
      obtain ⟨r, hr⟩ := Option.isSome_iff_exists.mp hsome
      rw [auto_resize_to_100_percent, if_neg hbs]
      try dsimp only
      rw [if_neg hc2]
      try dsimp only
      rw [if_pos hzero, hr]
      exact ⟨rfl, lookupPct_setPct_self _ hr⟩
    · intro hnone
      rw [auto_resize_to_100_percent, if_neg hbs]
      try dsimp only
      rw [if_neg hc2]
      try dsimp only
      rw [if_pos hzero, hnone]
  · intro hne0
    have hothers : otherBuckets s.buckets ≠ [] := by
      intro hnil
      exact hne0 (by rw [hnil]; rfl)
    have hbs : ¬ (s.buckets = []) := by
      intro hnil
      exact hothers (by rw [hnil]; rfl)
    have hc2 : ¬ (otherBuckets s.buckets = [] ∧
        (lookupPct s.buckets "rent").isSome = true) := by
      intro hc
      exact hothers hc.1
    rw [auto_resize_to_100_percent, if_neg hbs]
    try dsimp only
    rw [if_neg hc2]
    try dsimp only
    rw [if_neg hne0]
    refine ⟨rfl, lookupPct_scaleMap_rent _ _, ?_, ?_⟩
    · intro n q hn hq
      rw [lookupPct_scaleMap_ne _ _ _ hn, hq]
      rfl
    · rw [get_total_percentage]
      try dsimp only
      rw [totalPct_scaleMap, rentEntries_total_of_nodup _ hkeys]
      field_simp

/-- Witness for the amended C4 on a two-bucket ledger with no rent. -/
theorem spec_C4_witness :
    get_total_percentage
      (auto_resize_to_100_percent ⟨[("free", 50), ("a", 50)], 0⟩).2 = 100 :=
  ((spec_C4_amended ⟨[("free", 50), ("a", 50)], 0⟩ (by decide)).2.2.2
    (by norm_num +decide [otherBuckets, totalPct])).2.2.2

/-! ## Claim C6: interpreter auto-creation for ADD_AMOUNT / SUBTRACT_AMOUNT -/

/-- C6 counterexample: on the reachable ledger where "free" sits at 0
(after ADD_BUCKET a 100), the line ADD_AMOUNT b 50 DOES fail with the
not-found result: the auto-create add_bucket call returns False when free
is exactly 0, the bucket is never created, and add_amount_to_bucket then
reports the bucket as missing. -/
theorem spec_C6_counterexample :
    lookupPct (add_bucket (mkManager 1000) "a" 100).2.buckets "b" = none ∧
    executeCommand (add_bucket (mkManager 1000) "a" 100).2 "ADD_AMOUNT b 50"
      = (.addAmountFail, (add_bucket (mkManager 1000) "a" 100).2) ∧
    lookupPct (executeCommand (add_bucket (mkManager 1000) "a" 100).2
      "ADD_AMOUNT b 50").2.buckets "b" = none := by
  have hb : (add_bucket (mkManager 1000) "a" 100).2
      = ⟨[("free", 0), ("a", 100)], 1000⟩ := by
    norm_num +decide [add_bucket, mkManager, lookupPct, setPct, totalPct]
  have hsplit : pySplitWs (pyStrip "ADD_AMOUNT b 50") = ["ADD_AMOUNT", "b", "50"] := by
    decide
  have hfloat : pyFloat? "50" = some 50 := by decide
  have hup : pyUpper "ADD_AMOUNT" = "ADD_AMOUNT" := by decide
  have hmain : executeCommand (add_bucket (mkManager 1000) "a" 100).2 "ADD_AMOUNT b 50"
      = (.addAmountFail, (add_bucket (mkManager 1000) "a" 100).2) := by
    rw [hb, executeCommand, hsplit]
    simp only [hup]
    norm_num +decide [execAddAmount, hfloat, add_bucket, add_amount_to_bucket,
      lookupPct, setPct, totalPct]
  refine ⟨?_, hmain, ?_⟩
  · rw [hb]
    decide
  · rw [hmain, hb]
    decide

/-- C6 amended: ADD_AMOUNT (resp. SUBTRACT_AMOUNT) on an absent bucket
auto-creates it at 0 percent and succeeds, but only under the conditions
the code actually needs: the "free" bucket must hold a positive
percentage (else the auto-create itself fails and the command reports the
bucket as missing), the total budget must be positive, and for ADD_AMOUNT
the resulting percentage x/budget*100 must fit under free plus the 0.01
tolerance; ADD_AMOUNT then yields a positive percentage sized from the
total budget, SUBTRACT_AMOUNT leaves the new bucket at 0 (zero clamp). -/
theorem spec_C6_amended (s : BMState) (name a1 : String) (x f : ℚ)
    (hx : pyFloat? a1 = some x)
    (habsent : lookupPct s.buckets name = none)
    (hf : lookupPct s.buckets "free" = some f)
    (hfpos : 0 < f)
    (hB : 0 < s.total_budget)
    (hxpos : 0 < x)
    (hcap : x / s.total_budget * 100 ≤ f + 1/100) :
    ((execAddAmount s [name, a1]).1 = .addAmountCreatedOk ∧
      lookupPct (execAddAmount s [name, a1]).2.buckets name
        = some (x / s.total_budget * 100) ∧
      0 < x / s.total_budget * 100) ∧
    ((execSubAmount s [name, a1]).1 = .subAmountCreatedOk ∧
      lookupPct (execSubAmount s [name, a1]).2.buckets name = some 0) := by
  have hnf : name ≠ "free" := by
    intro he
    rw [he, hf] at habsent
    exact Option.noConfusion habsent
  have hB' : ¬ s.total_budget ≤ 0 := not_le.mpr hB
  -- the auto-create add_bucket s name 0
  have hclamp : ¬ ((0 : ℚ) > f) := not_lt.mpr hfpos.le
  have hfne : ¬ (f = 0) := hfpos.ne'
  have hadd : (add_bucket s name 0).2
      = { s with buckets := setPct s.buckets "free" (f - 0) ++ [(name, 0)] } := by
    rw [add_bucket]
    rw [if_neg (by rw [habsent]; simp), hf]
    dsimp only
    rw [if_neg hclamp, if_neg hfne]
  have hs1name : lookupPct (add_bucket s name 0).2.buckets name = some 0 := by
    rw [hadd]
    have hset : lookupPct (setPct s.buckets "free" (f - 0)) name = none := by
      rw [lookupPct_eq_none_iff, keys_setPct]
      exact (lookupPct_eq_none_iff _ _).mp habsent
    rw [lookupPct_append_none _ hset, lookupPct_cons]
    simp
  have hs1free : lookupPct (add_bucket s name 0).2.buckets "free" = some (f - 0) := by
    rw [hadd]
    exact lookupPct_append_some _ (lookupPct_setPct_self _ hf)
  have hs1B : (add_bucket s name 0).2.total_budget = s.total_budget := by
    rw [hadd]
  have hcreated : (lookupPct s.buckets name).isNone = true := by
    rw [habsent]
    rfl
  constructor
  · -- ADD_AMOUNT
    rw [execAddAmount]
    dsimp only [List.head?, List.get?]
    rw [hx]
    dsimp only
    rw [if_pos hcreated]
    have hres : add_amount_to_bucket (add_bucket s name 0).2 name x
        = (.ok, ⟨setPct (setPct (add_bucket s name 0).2.buckets name
              (x / s.total_budget * 100)) "free"
              (max (f - 0 - (x / s.total_budget * 100 - 0)) 0),
            (add_bucket s name 0).2.total_budget⟩) := by
      rw [add_amount_to_bucket, hs1name]
      dsimp only
      rw [hs1B, if_neg hB', if_neg hnf, hs1free]
      dsimp only
      have hnc : ¬ ((0 : ℚ) / 100 * s.total_budget + x < 0) := by
        push_neg
        positivity
      rw [if_neg hnc]
      have hfn : ¬ (f - 0 - ((0 / 100 * s.total_budget + x) / s.total_budget * 100 - 0)
          < -(1/100)) := by
        push_neg
        have : (0 : ℚ) / 100 * s.total_budget + x = x := by ring
        rw [this]
        linarith
      rw [if_neg hfn]
      have he : (0 : ℚ) / 100 * s.total_budget + x = x := by ring
      rw [he]
    rw [hres]
    dsimp only
    refine ⟨by rw [if_pos hcreated], ?_, by positivity⟩
    rw [lookupPct_setPct_ne _ _ hnf]
    exact lookupPct_setPct_self _ hs1name
  · -- SUBTRACT_AMOUNT
    rw [execSubAmount]
    dsimp only [List.head?, List.get?]
    rw [hx]
    dsimp only
    rw [if_pos hcreated]
    have hres : subtract_amount_from_bucket (add_bucket s name 0).2 name x
        = (.ok, ⟨setPct (setPct (add_bucket s name 0).2.buckets name
              (0 / s.total_budget * 100)) "free"
              (max (f - 0 - (0 / s.total_budget * 100 - 0)) 0),
            (add_bucket s name 0).2.total_budget⟩) := by
      rw [subtract_eq_add_neg, add_amount_to_bucket, hs1name]
      dsimp only
      rw [hs1B, if_neg hB', if_neg hnf, hs1free]
      dsimp only
      have hnc : (0 : ℚ) / 100 * s.total_budget + -x < 0 := by
        have : (0 : ℚ) / 100 * s.total_budget + -x = -x := by ring
        rw [this]
        exact neg_neg_of_pos hxpos  -- check name
      rw [if_pos hnc]
      have hfn : ¬ (f - 0 - ((0 : ℚ) / s.total_budget * 100 - 0) < -(1/100)) := by
        push_neg
        have : (0 : ℚ) / s.total_budget * 100 = 0 := by ring
        rw [this]
        linarith
      rw [if_neg hfn]
    rw [hres]
    dsimp only
    refine ⟨by rw [if_pos hcreated], ?_⟩
    have h0 : (0 : ℚ) / s.total_budget * 100 = 0 := by ring
    rw [lookupPct_setPct_ne _ _ hnf, h0]
    exact lookupPct_setPct_self _ hs1name

/-- Witness for the amended C6: ADD_AMOUNT savings 50 on a fresh ledger
with a 2000 budget creates savings at 2.5 percent. -/
theorem spec_C6_witness :
    (execAddAmount (mkManager 2000) ["savings", "50"]).1 = .addAmountCreatedOk ∧
    lookupPct (execAddAmount (mkManager 2000) ["savings", "50"]).2.buckets "savings"
      = some ((50 : ℚ) / 2000 * 100) :=
  ⟨((spec_C6_amended (mkManager 2000) "savings" "50" 50 100 (by decide) (by decide)
      (by decide) (by norm_num) (by norm_num [mkManager]) (by norm_num)
      (by norm_num [mkManager])).1).1,
    ((spec_C6_amended (mkManager 2000) "savings" "50" 50 100 (by decide) (by decide)
      (by decide) (by norm_num) (by norm_num [mkManager]) (by norm_num)
      (by norm_num [mkManager])).1).2.1⟩

/-! ## Claim C8: interpreter execution contract -/

theorem runLines_length (s : BMState) (ls : List String) :
    (runLines s ls).1.length = ls.length := by
  induction ls generalizing s with
  | nil => rfl
  | cons l ls ih =>
    rw [runLines]
    dsimp only
    rw [List.length_cons, List.length_cons, ih]

theorem runLines_append (s : BMState) (xs ys : List String) :
    runLines s (xs ++ ys)
      = ((runLines s xs).1 ++ (runLines (runLines s xs).2 ys).1,
          (runLines (runLines s xs).2 ys).2) := by
  induction xs generalizing s with
  | nil => rfl
  | cons l xs ih =>
    rw [List.cons_append, runLines, runLines]
    dsimp only
    rw [ih]
    rfl

theorem executeCommand_unknown (s : BMState) (line t : String) (args : List String)
    (hsplit : pySplitWs (pyStrip line) = t :: args)
    (hnotin : pyUpper t ∉ knownCommands) :
    executeCommand s line = (.unknown, s) := by
  rw [executeCommand, hsplit]
  dsimp only
  simp only [knownCommands, List.mem_cons, List.not_mem_nil, or_false, not_or] at hnotin
  obtain ⟨h1, h2, h3, h4, h5, h6, h7, h8⟩ := hnotin
  rw [if_neg h1, if_neg h2, if_neg h3, if_neg h4, if_neg h5, if_neg h6, if_neg h7,
    if_neg h8]

/-- C8: the interpreter emits exactly one result per active line (non-blank
and not NO_ACTION), processes a block strictly in input order — running a
concatenation of line lists equals running the first then the second from
the reached state, so a failing line never aborts later ones — a line whose
first token is no known command yields the explicit unknown-command result
with the state untouched, and every line is mapped to a result by the total
function executeCommand (the try/except of the source: no exception
escapes); concretely, the two-line block FOO BAR / ADD_BUCKET x 10 on a
fresh ledger yields exactly the unknown-command result then a success. -/
theorem spec_C8_interpreter_contract :
    (∀ (s : BMState) (input : String),
      (callTranslator s input).1.length = (activeLines input).length) ∧
    (∀ (s : BMState) (xs ys : List String),
      runLines s (xs ++ ys)
        = ((runLines s xs).1 ++ (runLines (runLines s xs).2 ys).1,
            (runLines (runLines s xs).2 ys).2)) ∧
    (∀ (s : BMState) (line t : String) (args : List String),
      pySplitWs (pyStrip line) = t :: args → pyUpper t ∉ knownCommands →
      executeCommand s line = (.unknown, s)) ∧
    callTranslator (mkManager 0) "FOO BAR\nADD_BUCKET x 10"
      = ([.unknown, .addBucketOk], ⟨[("free", 90), ("x", 10)], 0⟩) := by
  refine ⟨?_, runLines_append, executeCommand_unknown, ?_⟩
  · intro s input
    exact runLines_length s (activeLines input)
  · have hact : activeLines "FOO BAR\nADD_BUCKET x 10"
        = ["FOO BAR", "ADD_BUCKET x 10"] := by decide
    have h1 : pySplitWs (pyStrip "FOO BAR") = ["FOO", "BAR"] := by decide
    have h2 : pySplitWs (pyStrip "ADD_BUCKET x 10") = ["ADD_BUCKET", "x", "10"] := by
      decide
    have hup1 : pyUpper "FOO" ∉ knownCommands := by decide
    have hf : pyFloat? "10" = some 10 := by decide
    have hup2 : pyUpper "ADD_BUCKET" = "ADD_BUCKET" := by decide
    rw [callTranslator, hact]
    rw [show runLines (mkManager 0) ["FOO BAR", "ADD_BUCKET x 10"]
      = _ from rfl]
    rw [runLines]
    rw [executeCommand_unknown (mkManager 0) "FOO BAR" "FOO" ["BAR"] h1 hup1]
    dsimp only
    rw [runLines, runLines]
    rw [executeCommand, h2]
    simp only [hup2]
    norm_num +decide [execAddBucket, hf, add_bucket, mkManager, lookupPct, setPct,
      totalPct]

/-- Witness for C8 at a concrete unknown-command line. -/
theorem spec_C8_witness :
    executeCommand (mkManager 0) "FOO BAR" = (.unknown, mkManager 0) :=
  spec_C8_interpreter_contract.2.2.1 (mkManager 0) "FOO BAR" "FOO" ["BAR"]
    (by decide) (by decide)

end Budget
